import Mathlib

/-!
Verification of the USDC burn listener (src/main.rs).

The development shallowly embeds the program's data model and operations:
`serde_json::Value` becomes the inductive `Json`; the JSON-RPC transport
becomes an oracle function from (method, params) to a decoded result or an
error; `poll_once`, `fetch_and_handle_tx` and `rpc_request` are translated
as pure functions, with printed burn lines modelled as returned
`BurnEvent` values and the outer loop's watermark update modelled as the
state-transition function `mainStep`.
-/

/-- Model of `serde_json::Value`. -/
inductive Json where
  | null : Json
  | bool : Bool → Json
  | num : Int → Json
  | str : String → Json
  | arr : List Json → Json
  | obj : List (String × Json) → Json

/-- First value bound to key `k` in an association list (object field lookup). -/
def lookupField : List (String × Json) → String → Option Json
  | [], _ => none
  | (k', v) :: rest, k => if k' = k then some v else lookupField rest k

/-- Model of `Value::get(key)` on objects; `None` on every other variant. -/
def Json.get : Json → String → Option Json
  | .obj fields, k => lookupField fields k
  | _, _ => none

/-- Model of `Value::as_str`. -/
def Json.asStr : Json → Option String
  | .str s => some s
  | _ => none

/-- Model of `Value::as_array`. -/
def Json.asArray : Json → Option (List Json)
  | .arr xs => some xs
  | _ => none

/-- Model of `Value::is_null`. -/
def Json.isNull : Json → Bool
  | .null => true
  | _ => false

/-- The event printed for a detected burn: transaction signature plus the
`info.mint`, `info.source` and `info.amount` fields. -/
structure BurnEvent where
  sig : String
  mint : String
  source : String
  amount : String
deriving DecidableEq

/-- Error taxonomy of `rpc_request`: the `bail!` on a non-success HTTP
status, a `serde_json::from_str` failure, and the `bail!` on a top-level
`error` field of the envelope. -/
inductive RpcError where
  | httpStatus : RpcError
  | decodeError : RpcError
  | rpcErrorField : Json → RpcError

/-- The JSON-RPC transport as an opaque capability: method name and params
in, decoded `result` value or error out (the behaviour `rpc_request`
provides to `poll_once` and `fetch_and_handle_tx`). -/
def Oracle : Type := String → List Json → Except RpcError Json

/-- The `{"limit": 20}` params object of `getSignaturesForAddress`. -/
def limitParam : Json := .obj [("limit", .num 20)]

/-- The options object of `getTransaction`. -/
def txParam : Json :=
  .obj [("encoding", .str "jsonParsed"), ("maxSupportedTransactionVersion", .num 0)]

/-- Model of `rpc_request` after the transport delivered a response:
`statusSuccess` is `status.is_success()`, and `parsedBody` is the outcome
of `serde_json::from_str` on the body (`none` = not valid JSON). -/
def rpc_request (statusSuccess : Bool) (parsedBody : Option Json) : Except RpcError Json :=
  if !statusSuccess then .error .httpStatus
  else
    match parsedBody with
    | none => .error .decodeError
    | some v =>
      match v.get "error" with
      | some e => .error (.rpcErrorField e)
      | none => .ok ((v.get "result").getD Json.null)

/-- ASCII-only lowercasing of one character, as in Rust's
`u8::to_ascii_lowercase`. -/
def asciiLower (c : Char) : Char :=
  if c.toNat ≥ 65 ∧ c.toNat ≤ 90 then Char.ofNat (c.toNat + 32) else c

/-- Model of `str::eq_ignore_ascii_case`: equality after ASCII lowering of
both sides. -/
def eqIgnoreAsciiCase (a b : String) : Bool :=
  a.data.map asciiLower == b.data.map asciiLower

/-- The per-instruction burn test of `fetch_and_handle_tx`: program field
(defaulted to "") equals "spl-token", a `parsed` sub-record is present,
and its `type` string equals "burn" up to ASCII case. -/
def isBurnInstr (instr : Json) : Bool :=
  (((instr.get "program").bind Json.asStr).getD "" == "spl-token")
  && match instr.get "parsed" with
     | some parsed =>
       match (parsed.get "type").bind Json.asStr with
       | some t => eqIgnoreAsciiCase t "burn"
       | none => false
     | none => false

/-- `parsed.get("info").unwrap_or(&Value::Null)` for an instruction. -/
def infoOf (instr : Json) : Json :=
  (((instr.get "parsed").getD Json.null).get "info").getD Json.null

/-- `info.get(k).and_then(as_str).unwrap_or("?")`. -/
def extractField (instr : Json) (k : String) : String :=
  (((infoOf instr).get k).bind Json.asStr).getD "?"

/-- The event built from a matched burn instruction. -/
def mkEvent (sig : String) (instr : Json) : BurnEvent :=
  { sig := sig
    mint := extractField instr "mint"
    source := extractField instr "source"
    amount := extractField instr "amount" }

/-- First-match scan of one instruction list (short-circuiting `for` with
`return Ok(true)` in the source). -/
def findBurn (sig : String) : List Json → Option BurnEvent
  | [] => none
  | instr :: rest =>
    if isBurnInstr instr then some (mkEvent sig instr) else findBurn sig rest

/-- `resp.transaction.message.instructions` as an array, or `[]` when any
level is absent (the nested `if let` chain falls through). -/
def topInstrs (resp : Json) : List Json :=
  ((((resp.get "transaction").bind (fun t => t.get "message")).bind
      (fun m => m.get "instructions")).bind Json.asArray).getD []

/-- `resp.meta.innerInstructions` as an array of groups, or `[]`. -/
def innerGroups (resp : Json) : List Json :=
  (((resp.get "meta").bind (fun m => m.get "innerInstructions")).bind Json.asArray).getD []

/-- One inner group's `instructions` array, or `[]` when absent. -/
def grpInstrs (g : Json) : List Json :=
  ((g.get "instructions").bind Json.asArray).getD []

/-- First-match scan over the inner-instruction groups, group order then
per-group instruction order. -/
def findBurnInner (sig : String) : List Json → Option BurnEvent
  | [] => none
  | g :: rest =>
    match findBurn sig (grpInstrs g) with
    | some e => some e
    | none => findBurnInner sig rest

/-- The burn detection of `fetch_and_handle_tx` on a fetched transaction
value: null means no burn; otherwise the top-level instruction list is
scanned first, then the inner-instruction groups; `some e` stands for the
source's `Ok(true)` with the printed line `e`, `none` for `Ok(false)`. -/
def detect (sig : String) (resp : Json) : Option BurnEvent :=
  if resp.isNull then none
  else
    match findBurn sig (topInstrs resp) with
    | some e => some e
    | none => findBurnInner sig (innerGroups resp)

/-- Model of `fetch_and_handle_tx`: the `getTransaction` call followed by
detection; an RPC error propagates via `?`. -/
def fetch_and_handle_tx (oracle : Oracle) (sig : String) :
    Except RpcError (Option BurnEvent) :=
  match oracle "getTransaction" [Json.str sig, txParam] with
  | .error e => .error e
  | .ok resp => .ok (detect sig resp)

/-- `entry.get("signature").and_then(|v| v.as_str())` on a signature-list
entry. -/
def sigOf (entry : Json) : Option String :=
  (entry.get "signature").bind Json.asStr

/-- The collection loop of `poll_once` (lines 62-71): scan the newest-first
entries, skip entries without a string `signature` field, stop at the
first entry equal to `last_seen`, collect the rest. -/
def collectNew : List Json → Option String → List String
  | [], _ => []
  | e :: rest, lastSeen =>
    match sigOf e with
    | some sig => if some sig = lastSeen then [] else sig :: collectNew rest lastSeen
    | none => collectNew rest lastSeen

/-- The new-signature computation: collect then reverse into
oldest-to-newest order (`new_sigs.reverse()`). -/
def newSince (entries : List Json) (lastSeen : Option String) : List String :=
  (collectNew entries lastSeen).reverse

/-- The per-signature loop of `poll_once` (lines 80-92): each signature is
fetched and handled; on `Ok` the `newest_processed` watermark candidate
becomes that signature and a found burn is emitted; on `Err` the error is
logged and the candidate is left unchanged. Returns the final candidate
and the emitted events in order. -/
def processLoop (oracle : Oracle) : List String → Option String →
    Option String × List BurnEvent
  | [], newest => (newest, [])
  | s :: rest, newest =>
    match fetch_and_handle_tx oracle s with
    | .ok r =>
      let p := processLoop oracle rest (some s)
      (p.1, (match r with | some ev => [ev] | none => []) ++ p.2)
    | .error _ => processLoop oracle rest newest

/-- Failure modes of `poll_once` itself: a failed signature-list RPC call,
or a `result` that is not an array. -/
inductive PollError where
  | rpc : RpcError → PollError
  | expectedArray : PollError

/-- Model of `poll_once`: fetch the signature page for the watched mint,
compute the new signatures against `lastSeen`, process them oldest to
newest; returns the new watermark candidate and the emitted events. -/
def poll_once (mint : String) (oracle : Oracle) (lastSeen : Option String) :
    Except PollError (Option String × List BurnEvent) :=
  match oracle "getSignaturesForAddress" [Json.str mint, limitParam] with
  | .error e => .error (.rpc e)
  | .ok sigs =>
    match sigs.asArray with
    | none => .error .expectedArray
    | some arr =>
      if arr.isEmpty then .ok (none, [])
      else
        let news := newSince arr lastSeen
        if news.isEmpty then .ok (none, [])
        else .ok (processLoop oracle news none)

/-- One iteration of `main`'s loop: run `poll_once`; on `Ok(Some sig)` the
watermark becomes `sig`, on `Ok(None)` or on an error it is unchanged.
Returns the new watermark and the cycle's emitted events. -/
def mainStep (mint : String) (oracle : Oracle) (lastSeen : Option String) :
    Option String × List BurnEvent :=
  match poll_once mint oracle lastSeen with
  | .ok (some s, evs) => (some s, evs)
  | .ok (none, evs) => (lastSeen, evs)
  | .error _ => (lastSeen, [])

/-- Spec-side characterization (for comparison with the loop): the newest
signature, in oldest-to-newest iteration order, whose fetch/handle attempt
returned `Ok`. -/
def newestOk (oracle : Oracle) (sigs : List String) : Option String :=
  sigs.foldl
    (fun acc s =>
      match fetch_and_handle_tx oracle s with
      | .ok _ => some s
      | .error _ => acc)
    none

/-- The event a signature's attempt contributes: the detector's output on
`Ok`, nothing on an error. -/
def okEvent (oracle : Oracle) (s : String) : Option BurnEvent :=
  match fetch_and_handle_tx oracle s with
  | .ok r => r
  | .error _ => none

/-- The default watched mint of the program. -/
def DEFAULT_USDC_MINT : String := "EPjFWdd5AufqSSqeM2qN1xzybapC8G4wEGGkZwyTDt1v"

/-- A signature page: one object with a `signature` field per entry,
newest first. -/
def pageEntries (sigs : List String) : List Json :=
  sigs.map (fun s => Json.obj [("signature", Json.str s)])

/-- A parsed transaction whose top-level instruction list holds one
spl-token burn with amount "100", source "A", mint "M". -/
def burnInstr : Json :=
  .obj [("program", .str "spl-token"),
        ("parsed", .obj [("type", .str "burn"),
                         ("info", .obj [("amount", .str "100"),
                                        ("source", .str "A"),
                                        ("mint", .str "M")])])]

def burnTx : Json :=
  .obj [("transaction", .obj [("message", .obj [("instructions", .arr [burnInstr])])])]

/-- A burn instruction whose `info.mint` is a token other than the watched
USDC mint. -/
def burnInstrOther : Json :=
  .obj [("program", .str "spl-token"),
        ("parsed", .obj [("type", .str "burn"),
                         ("info", .obj [("amount", .str "5"),
                                        ("source", .str "B"),
                                        ("mint", .str "OTHER")])])]

def burnTxOther : Json :=
  .obj [("transaction", .obj [("message", .obj [("instructions", .arr [burnInstrOther])])])]

/-- Oracle for a first cycle: a one-entry page whose transaction carries a
top-level burn. -/
def oracleFirst : Oracle := fun method _ =>
  if method = "getSignaturesForAddress" then .ok (.arr (pageEntries ["s1"]))
  else .ok burnTx

/-- The newest-first page used by the failing-tail scenario. -/
def pageTail : List Json := pageEntries ["s2", "s1", "s0"]

/-- Oracle where the newest signature `s2` always fails to fetch and the
older `s1` fetches a null (not-yet-available) transaction. -/
def oracleTail : Oracle := fun method params =>
  if method = "getSignaturesForAddress" then .ok (.arr pageTail)
  else
    match params with
    | Json.str s :: _ => if s = "s2" then .error .httpStatus else .ok .null
    | _ => .ok .null

/-- Oracle whose page is the same regardless of the queried address and
whose only transaction burns the mint "OTHER". -/
def oracleOther : Oracle := fun method _ =>
  if method = "getSignaturesForAddress" then .ok (.arr (pageEntries ["s1"]))
  else .ok burnTxOther

/-- A transaction for the ordering scenario: a non-burn top-level
instruction, then an inner group holding a burn followed by a second
burn-like instruction. -/
def nonBurnInstr : Json :=
  .obj [("program", .str "system"),
        ("parsed", .obj [("type", .str "transfer")])]

def mixedTx : Json :=
  .obj [("transaction",
         .obj [("message", .obj [("instructions", .arr [nonBurnInstr])])]),
        ("meta",
         .obj [("innerInstructions",
                .arr [.obj [("instructions", .arr [burnInstr, burnInstrOther])]])])]

/-- A burn instruction whose `parsed` record carries no `info` at all. -/
def burnInstrNoInfo : Json :=
  .obj [("program", .str "spl-token"),
        ("parsed", .obj [("type", .str "Burn")])]

/-- Oracle whose transaction fetches always return null. -/
def oracleNull : Oracle := fun method _ =>
  if method = "getSignaturesForAddress" then .ok (.arr (pageEntries ["s1"]))
  else .ok .null

/-- Oracle whose every call fails at the HTTP level. -/
def oracleDown : Oracle := fun _ _ => .error .httpStatus


theorem collectNew_none (arr : List Json) :
    collectNew arr none = arr.filterMap sigOf := by
  induction arr with
  | nil => rfl
  | cons e rest ih =>
    cases h : sigOf e <;> simp [collectNew, h, ih, List.filterMap_cons]

theorem collectNew_notFound (w : String) :
    ∀ arr : List Json, (∀ e ∈ arr, sigOf e ≠ some w) →
      collectNew arr (some w) = arr.filterMap sigOf := by
  intro arr
  induction arr with
  | nil => intro _; rfl
  | cons e rest ih =>
    intro h
    have he : sigOf e ≠ some w := h e (by simp)
    have hr := ih (fun e' hm => h e' (by simp [hm]))
    cases hs : sigOf e with
    | none => simp [collectNew, hs, hr, List.filterMap_cons]
    | some s =>
      have hne : ¬(some s = some w) := hs ▸ he
      simp [collectNew, hs, hr, List.filterMap_cons]
      intro hc
      exact absurd (by rw [hc]) hne

theorem collectNew_break (w : String) (e : Json) (L₂ : List Json) (he : sigOf e = some w) :
    ∀ L₁ : List Json, (∀ e' ∈ L₁, sigOf e' ≠ some w) →
      collectNew (L₁ ++ e :: L₂) (some w) = L₁.filterMap sigOf := by
  intro L₁
  induction L₁ with
  | nil => intro _; simp [collectNew, he]
  | cons a rest ih =>
    intro h
    have ha : sigOf a ≠ some w := h a (by simp)
    have hr := ih (fun e' hm => h e' (by simp [hm]))
    cases hs : sigOf a with
    | none => simp [collectNew, hs, hr, List.filterMap_cons]
    | some s =>
      have hne : ¬(some s = some w) := hs ▸ ha
      simp [collectNew, hs, hr, List.filterMap_cons]
      intro hc
      exact absurd (by rw [hc]) hne

theorem processLoop_fst (oracle : Oracle) :
    ∀ (sigs : List String) (acc : Option String),
      (processLoop oracle sigs acc).1
        = sigs.foldl
            (fun a s =>
              match fetch_and_handle_tx oracle s with
              | .ok _ => some s
              | .error _ => a)
            acc := by
  intro sigs
  induction sigs with
  | nil => intro acc; rfl
  | cons s rest ih =>
    intro acc
    cases hf : fetch_and_handle_tx oracle s with
    | ok r => simp [processLoop, hf, ih]
    | error e => simp [processLoop, hf, ih]

theorem processLoop_fst_mem (oracle : Oracle) :
    ∀ (sigs : List String) (acc : Option String),
      (processLoop oracle sigs acc).1 = acc
      ∨ ∃ s ∈ sigs, (processLoop oracle sigs acc).1 = some s := by
  intro sigs
  induction sigs with
  | nil => intro _; exact Or.inl rfl
  | cons s rest ih =>
    intro acc
    cases hf : fetch_and_handle_tx oracle s with
    | ok r =>
      rcases ih (some s) with h | ⟨t, ht, hh⟩
      · exact Or.inr ⟨s, by simp, by simp [processLoop, hf, h]⟩
      · exact Or.inr ⟨t, by simp [ht], by simp [processLoop, hf, hh]⟩
    | error e =>
      rcases ih acc with h | ⟨t, ht, hh⟩
      · exact Or.inl (by simp [processLoop, hf, h])
      · exact Or.inr ⟨t, by simp [ht], by simp [processLoop, hf, hh]⟩

theorem processLoop_snd (oracle : Oracle) :
    ∀ (sigs : List String) (acc : Option String),
      (processLoop oracle sigs acc).2 = sigs.filterMap (okEvent oracle) := by
  intro sigs
  induction sigs with
  | nil => intro _; rfl
  | cons s rest ih =>
    intro acc
    cases hf : fetch_and_handle_tx oracle s with
    | ok r =>
      cases r with
      | none => simp [processLoop, hf, ih, okEvent, List.filterMap_cons]
      | some ev => simp [processLoop, hf, ih, okEvent, List.filterMap_cons]
    | error e => simp [processLoop, hf, ih, okEvent, List.filterMap_cons]

/-- C1: for every signature list and watermark, the new-signature
computation returns the entries strictly before the first entry whose
signature equals the watermark, reversed into oldest-to-newest order;
with no watermark, or when no entry matches it, every entry is returned;
entries without a string `signature` field are skipped (they are absent
from `filterMap sigOf`); the empty list yields the empty result. -/
theorem c1_newSince_spec :
    (∀ L : List Json, newSince L none = (L.filterMap sigOf).reverse)
    ∧ (∀ (L : List Json) (w : String), (∀ e ∈ L, sigOf e ≠ some w) →
        newSince L (some w) = (L.filterMap sigOf).reverse)
    ∧ (∀ (L₁ : List Json) (e : Json) (L₂ : List Json) (w : String),
        (∀ e' ∈ L₁, sigOf e' ≠ some w) → sigOf e = some w →
        newSince (L₁ ++ e :: L₂) (some w) = (L₁.filterMap sigOf).reverse)
    ∧ (∀ W : Option String, newSince [] W = []) := by
  refine ⟨fun L => ?_, fun L w h => ?_, fun L₁ e L₂ w h₁ he => ?_, fun W => rfl⟩
  · rw [newSince, collectNew_none]
  · rw [newSince, collectNew_notFound w L h]
  · rw [newSince, collectNew_break w e L₂ he L₁ h₁]

/-- Witness for C1 at the spec's end-to-end page: watermark "s1" in a
three-entry page keeps exactly the two newer entries, oldest first. -/
theorem c1_newSince_spec_witness :
    newSince (pageEntries ["s3", "s2"] ++ Json.obj [("signature", Json.str "s1")] :: [])
        (some "s1")
      = ((pageEntries ["s3", "s2"]).filterMap sigOf).reverse :=
  c1_newSince_spec.2.2.1 (pageEntries ["s3", "s2"])
    (Json.obj [("signature", Json.str "s1")]) [] "s1" (by decide) rfl

/-- C2 counterexample: with batch ["s1", "s2"] (oldest first) where the
newest signature "s2" fails to fetch, the cycle's watermark becomes "s1",
not the newest attempted "s2", and the next cycle's new-signature list
contains "s2" again — the failed signature is retried. -/
theorem c2_counterexample :
    (mainStep "m" oracleTail (some "s0")).1 = some "s1"
    ∧ (mainStep "m" oracleTail (some "s0")).1 ≠ some "s2"
    ∧ newSince pageTail (some "s1") = ["s2"] := by decide

/-- C2 (amended): after the per-signature loop, the watermark candidate is
the newest signature of the batch whose fetch/handle attempt returned
`Ok` (success, no burn, or null transaction) — not the newest attempted
one. In particular, when the newest signature of the batch succeeds, the
watermark is that signature regardless of earlier failures, so those
earlier failed signatures are never retried; a signature that failed with
no later success in the batch stays above the watermark and is retried. -/
theorem c2_watermark_newest_ok :
    (∀ (oracle : Oracle) (sigs : List String),
      (processLoop oracle sigs none).1 = newestOk oracle sigs)
    ∧ (∀ (oracle : Oracle) (l : List String) (s : String),
        (fetch_and_handle_tx oracle s).isOk = true →
        (processLoop oracle (l ++ [s]) none).1 = some s) := by
  constructor
  · intro oracle sigs
    rw [processLoop_fst]
    rfl
  · intro oracle l s h
    rw [processLoop_fst, List.foldl_append]
    cases hf : fetch_and_handle_tx oracle s with
    | ok r => simp [hf]
    | error e => rw [hf] at h; exact absurd h (by simp [Except.isOk, Except.toBool])

/-- Witness for C2's amended theorem: under `oracleNull`, "s1" fetches a
null transaction (`Ok`), so after the batch ["s0", "s1"] the watermark
candidate is "s1" despite "s0" being first. -/
theorem c2_watermark_newest_ok_witness :
    (processLoop oracleNull ["s0"] none).1 = newestOk oracleNull ["s0"]
    ∧ (processLoop oracleNull (["s0"] ++ ["s1"]) none).1 = some "s1" :=
  ⟨c2_watermark_newest_ok.1 oracleNull ["s0"],
   c2_watermark_newest_ok.2 oracleNull ["s0"] "s1" rfl⟩

theorem mainStep_eq (mint : String) (oracle : Oracle) (lastSeen : Option String)
    (arr : List Json)
    (h : oracle "getSignaturesForAddress" [Json.str mint, limitParam] = .ok (.arr arr)) :
    mainStep mint oracle lastSeen
      = if arr.isEmpty then (lastSeen, [])
        else if (newSince arr lastSeen).isEmpty then (lastSeen, [])
        else
          match processLoop oracle (newSince arr lastSeen) none with
          | (some s, evs) => (some s, evs)
          | (none, evs) => (lastSeen, evs) := by
  unfold mainStep poll_once
  rw [h]
  simp only [Json.asArray]
  cases harr : arr.isEmpty with
  | true => simp [harr]
  | false =>
    simp only [harr, Bool.false_eq_true, if_false]
    cases hnews : (newSince arr lastSeen).isEmpty with
    | true => simp [hnews]
    | false =>
      simp only [hnews, Bool.false_eq_true, if_false]
      rcases hp : processLoop oracle (newSince arr lastSeen) none with ⟨fst, snd⟩
      cases fst <;> simp [hp]

/-- C3 counterexample: on a first cycle (absent watermark) over a page
whose single transaction holds a burn, the cycle's event output is not
empty — a burn from the first page is reported, contradicting the claim
that only the watermark advances. -/
theorem c3_counterexample :
    (mainStep DEFAULT_USDC_MINT oracleFirst none).2 ≠ []
    ∧ mainStep DEFAULT_USDC_MINT oracleFirst none
        = (some "s1", [⟨"s1", "M", "A", "100"⟩]) := by decide

/-- C3 (amended): on the first cycle, when the watermark is absent, every
entry of the page is treated as new: `poll_once` hands the full page,
oldest to newest, to the per-signature loop, so burns found in the first
page ARE emitted (the events are exactly the detector's outputs for the
page), and the watermark advances to the newest successfully handled
signature rather than being silently adopted without processing. -/
theorem c3_first_cycle_processes_page :
    ∀ (mint : String) (oracle : Oracle) (arr : List Json),
      oracle "getSignaturesForAddress" [Json.str mint, limitParam] = .ok (.arr arr) →
      arr.filterMap sigOf ≠ [] →
      poll_once mint oracle none
        = .ok (processLoop oracle (arr.filterMap sigOf).reverse none)
      ∧ (processLoop oracle (arr.filterMap sigOf).reverse none).2
        = ((arr.filterMap sigOf).reverse).filterMap (okEvent oracle) := by
  intro mint oracle arr h hne
  have hrev : newSince arr none = (arr.filterMap sigOf).reverse := by
    rw [newSince, collectNew_none]
  refine ⟨?_, processLoop_snd oracle _ none⟩
  have hne' : arr ≠ [] := by
    intro hh
    exact hne (by simp [hh])
  have h1 : arr.isEmpty = false := by
    cases arr with
    | nil => exact absurd rfl hne'
    | cons a as => rfl
  have h2 : ((arr.filterMap sigOf).reverse).isEmpty = false := by
    cases hcc : (arr.filterMap sigOf).reverse with
    | nil => exact absurd (by simpa using hcc) hne
    | cons b bs => rfl
  unfold poll_once
  rw [h]
  simp only [Json.asArray, h1, hrev, h2, Bool.false_eq_true, if_false]

/-- Witness for C3's amended theorem: a concrete first cycle whose page
holds one signature; the full page is processed and its events are the
detector's outputs. -/
theorem c3_first_cycle_processes_page_witness :
    poll_once "m" oracleFirst none
      = .ok (processLoop oracleFirst ((pageEntries ["s1"]).filterMap sigOf).reverse none)
    ∧ (processLoop oracleFirst ((pageEntries ["s1"]).filterMap sigOf).reverse none).2
      = (((pageEntries ["s1"]).filterMap sigOf).reverse).filterMap (okEvent oracleFirst) :=
  c3_first_cycle_processes_page "m" oracleFirst (pageEntries ["s1"]) rfl (by decide)

/-- C4: with watermark `w` and a newest-first page containing `w`
(decomposed as `L₁ ++ e :: L₂` with `sigOf e = some w`, `w` not among the
strictly newer entries `L₁`, and no signature at or after `w`'s position
recurring among `L₁`'s signatures), no signature at or after `w`'s
position — `w` itself included — appears in the list handed to burn
detection, and the cycle's resulting watermark either stays `w` or
becomes one of the strictly newer signatures: it never moves backward. -/
theorem c4_watermark_invariant :
    ∀ (L₁ : List Json) (e : Json) (L₂ : List Json) (w mint : String) (oracle : Oracle),
      (∀ e' ∈ L₁, sigOf e' ≠ some w) →
      sigOf e = some w →
      (∀ e' ∈ e :: L₂, ∀ s ∈ L₁.filterMap sigOf, sigOf e' ≠ some s) →
      oracle "getSignaturesForAddress" [Json.str mint, limitParam]
        = .ok (.arr (L₁ ++ e :: L₂)) →
      (∀ e' ∈ e :: L₂, ∀ s ∈ newSince (L₁ ++ e :: L₂) (some w), sigOf e' ≠ some s)
      ∧ ((mainStep mint oracle (some w)).1 = some w
         ∨ ∃ s ∈ L₁.filterMap sigOf, (mainStep mint oracle (some w)).1 = some s) := by
  intro L₁ e L₂ w mint oracle h₁ he hdist horacle
  have hns : newSince (L₁ ++ e :: L₂) (some w) = (L₁.filterMap sigOf).reverse := by
    rw [newSince, collectNew_break w e L₂ he L₁ h₁]
  constructor
  · intro e' hmem s hs
    rw [hns] at hs
    exact hdist e' hmem s (List.mem_reverse.mp hs)
  · have harr : (L₁ ++ e :: L₂).isEmpty = false := by
      cases L₁ with
      | nil => rfl
      | cons a as => rfl
    rw [mainStep_eq mint oracle (some w) _ horacle, harr, hns]
    simp only [Bool.false_eq_true, if_false]
    cases hemp : ((L₁.filterMap sigOf).reverse).isEmpty with
    | true => left; simp [hemp]
    | false =>
      simp only [hemp, Bool.false_eq_true, if_false]
      rcases hp : processLoop oracle ((L₁.filterMap sigOf).reverse) none with ⟨fst, evs⟩
      rcases processLoop_fst_mem oracle ((L₁.filterMap sigOf).reverse) none with hacc | ⟨t, ht, hh⟩
      · rw [hp] at hacc
        simp only at hacc
        subst hacc
        left; rfl
      · rw [hp] at hh
        simp only at hh
        subst hh
        right
        exact ⟨t, List.mem_reverse.mp ht, rfl⟩

/-- Witness for C4: the three-entry page with watermark "s0": neither
"s0" nor anything at its position or after is handed to detection, and
the cycle's watermark stays "s0" or moves to a strictly newer page
signature. -/
theorem c4_watermark_invariant_witness :
    (∀ e' ∈ Json.obj [("signature", Json.str "s0")] :: ([] : List Json),
       ∀ s ∈ newSince (pageEntries ["s2", "s1"]
                        ++ Json.obj [("signature", Json.str "s0")] :: []) (some "s0"),
       sigOf e' ≠ some s)
    ∧ ((mainStep "m" oracleTail (some "s0")).1 = some "s0"
       ∨ ∃ s ∈ (pageEntries ["s2", "s1"]).filterMap sigOf,
           (mainStep "m" oracleTail (some "s0")).1 = some s) :=
  c4_watermark_invariant (pageEntries ["s2", "s1"]) (Json.obj [("signature", Json.str "s0")])
    [] "s0" "m" oracleTail (by decide) rfl (by decide) rfl

theorem findBurn_append (sig : String) (a b : List Json) :
    findBurn sig (a ++ b)
      = match findBurn sig a with
        | some e => some e
        | none => findBurn sig b := by
  induction a with
  | nil => rfl
  | cons i rest ih =>
    cases h : isBurnInstr i with
    | true => simp [findBurn, h]
    | false => simp [findBurn, h, ih]

theorem findBurn_eq_find (sig : String) (l : List Json) :
    findBurn sig l = (l.find? isBurnInstr).map (mkEvent sig) := by
  induction l with
  | nil => rfl
  | cons i rest ih =>
    cases h : isBurnInstr i with
    | true => simp [findBurn, h, List.find?_cons_of_pos _ h]
    | false => simp [findBurn, h, List.find?_cons_of_neg, ih]

theorem findBurnInner_eq (sig : String) (gs : List Json) :
    findBurnInner sig gs = findBurn sig (gs.flatMap grpInstrs) := by
  induction gs with
  | nil => rfl
  | cons g rest ih =>
    rw [List.flatMap_cons, findBurn_append]
    cases h : findBurn sig (grpInstrs g) with
    | none => simp [findBurnInner, h, ih]
    | some e => simp [findBurnInner, h]

/-- C5: on every non-null transaction value, detection returns exactly the
first-match scan over the top-level instructions followed by the
inner-instruction groups flattened in group order then per-group order:
the event of the first instruction whose program is "spl-token" and whose
parsed type equals "burn" up to ASCII case — hence at most one event per
transaction even when several burns are present. -/
theorem c5_detect_first_match :
    ∀ (sig : String) (resp : Json), resp.isNull = false →
      detect sig resp
        = ((topInstrs resp ++ (innerGroups resp).flatMap grpInstrs).find? isBurnInstr).map
            (mkEvent sig) := by
  intro sig resp h
  rw [← findBurn_eq_find, findBurn_append]
  unfold detect
  rw [h]
  simp only [Bool.false_eq_true, if_false]
  cases hf : findBurn sig (topInstrs resp) with
  | some e => simp
  | none => simp [findBurnInner_eq]

/-- Witness for C5 on the ordering scenario: a non-burn top-level
instruction followed by an inner group with a burn and a second burn-like
instruction; detection returns exactly the group's first burn. -/
theorem c5_detect_first_match_witness :
    detect "t1" mixedTx
      = ((topInstrs mixedTx ++ (innerGroups mixedTx).flatMap grpInstrs).find? isBurnInstr).map
          (mkEvent "t1")
    ∧ detect "t1" mixedTx = some ⟨"t1", "M", "A", "100"⟩ :=
  ⟨c5_detect_first_match "t1" mixedTx rfl, by decide⟩

/-- C6: a null fetched transaction is no burn rather than an error: the
fetch/handle step returns `Ok` with no event, the loop records the
signature as the new watermark candidate exactly as for any other `Ok`,
and once that signature is the watermark and heads the page it is never
collected again. -/
theorem c6_null_tx_counts_attempted :
    ∀ (oracle : Oracle) (s : String),
      oracle "getTransaction" [Json.str s, txParam] = .ok Json.null →
      fetch_and_handle_tx oracle s = .ok none
      ∧ (∀ (rest : List String) (acc : Option String),
          processLoop oracle (s :: rest) acc = processLoop oracle rest (some s))
      ∧ (∀ (e : Json) (L : List Json), sigOf e = some s →
          newSince (e :: L) (some s) = []) := by
  intro oracle s h
  have hf : fetch_and_handle_tx oracle s = .ok none := by
    unfold fetch_and_handle_tx
    rw [h]
    rfl
  refine ⟨hf, fun rest acc => ?_, fun e L he => ?_⟩
  · simp [processLoop, hf]
  · rw [newSince]
    simp [collectNew, he]

/-- Witness for C6: under the all-null oracle, "s1" is handled as `Ok`
with no burn, advances the loop's candidate, and is not re-collected once
it is the watermark. -/
theorem c6_null_tx_counts_attempted_witness :
    fetch_and_handle_tx oracleNull "s1" = .ok none
    ∧ processLoop oracleNull ["s1"] none = processLoop oracleNull [] (some "s1")
    ∧ newSince (Json.obj [("signature", Json.str "s1")] :: []) (some "s1") = [] := by
  have h := c6_null_tx_counts_attempted oracleNull "s1" rfl
  exact ⟨h.1, h.2.1 [] none, h.2.2 (Json.obj [("signature", Json.str "s1")]) [] rfl⟩

/-- C7: for every instruction matched as a burn, extraction is total: a
burn event is produced whose fields come from `info`, and any field that
is absent, not a string, or whose `info` record is missing yields the
placeholder "?" instead of a failure. -/
theorem c7_malformed_info_defaults :
    ∀ (sig : String) (instr : Json) (rest : List Json),
      isBurnInstr instr = true →
      findBurn sig (instr :: rest)
        = some { sig := sig, mint := extractField instr "mint",
                 source := extractField instr "source",
                 amount := extractField instr "amount" }
      ∧ (∀ k : String, ((infoOf instr).get k).bind Json.asStr = none →
          extractField instr k = "?") := by
  intro sig instr rest h
  constructor
  · simp [findBurn, h, mkEvent]
  · intro k hk
    rw [extractField, hk]
    rfl

/-- Witness for C7: a burn instruction whose `parsed` record has no `info`
at all still produces an event and its `amount` is "?". -/
theorem c7_malformed_info_defaults_witness :
    findBurn "s9" [burnInstrNoInfo]
      = some { sig := "s9", mint := extractField burnInstrNoInfo "mint",
               source := extractField burnInstrNoInfo "source",
               amount := extractField burnInstrNoInfo "amount" }
    ∧ extractField burnInstrNoInfo "amount" = "?" :=
  ⟨(c7_malformed_info_defaults "s9" burnInstrNoInfo [] (by decide)).1,
   (c7_malformed_info_defaults "s9" burnInstrNoInfo [] (by decide)).2 "amount" rfl⟩

/-- C8: `rpc_request` fails with the HTTP-status error whenever the status
is not a success (the body is not even parsed), fails with the decode
error when a successful response's body is not valid JSON, fails with the
protocol error carrying the envelope's `error` field when one is present
even under a 2xx status, and otherwise succeeds with the envelope's
`result` field, or null when that field is absent. -/
theorem c8_rpc_request_spec :
    (∀ b : Option Json, rpc_request false b = .error .httpStatus)
    ∧ rpc_request true none = .error .decodeError
    ∧ (∀ v e : Json, v.get "error" = some e →
        rpc_request true (some v) = .error (.rpcErrorField e))
    ∧ (∀ v : Json, v.get "error" = none →
        rpc_request true (some v) = .ok ((v.get "result").getD Json.null)) := by
  refine ⟨fun b => rfl, rfl, fun v e h => ?_, fun v h => ?_⟩
  · simp [rpc_request, h]
  · simp [rpc_request, h]

/-- Witness for C8 on concrete envelopes: a failed status, an unparseable
body, an `error` field under a 2xx status, and a success envelope. -/
theorem c8_rpc_request_spec_witness :
    rpc_request false (some (Json.obj [("result", Json.str "r")])) = .error .httpStatus
    ∧ rpc_request true none = .error .decodeError
    ∧ rpc_request true (some (Json.obj [("error", Json.str "bad")]))
        = .error (.rpcErrorField (Json.str "bad"))
    ∧ rpc_request true (some (Json.obj [("result", Json.str "r")]))
        = .ok (((Json.obj [("result", Json.str "r")]).get "result").getD Json.null) :=
  ⟨c8_rpc_request_spec.1 (some (Json.obj [("result", Json.str "r")])),
   c8_rpc_request_spec.2.1,
   c8_rpc_request_spec.2.2.1 (Json.obj [("error", Json.str "bad")]) (Json.str "bad") rfl,
   c8_rpc_request_spec.2.2.2 (Json.obj [("result", Json.str "r")]) rfl⟩

/-- C9: failures are isolated at the two levels: a failed signature-list
RPC call leaves the watermark state unchanged with no events, and one
signature's fetch/handle failure makes the loop continue on the remaining
signatures exactly as if the failed one had not been in the batch. -/
theorem c9_failure_isolation :
    ∀ (mint : String) (oracle : Oracle) (lastSeen : Option String),
      (∀ e : RpcError,
        oracle "getSignaturesForAddress" [Json.str mint, limitParam] = .error e →
        mainStep mint oracle lastSeen = (lastSeen, []))
      ∧ (∀ (s : String) (rest : List String) (acc : Option String) (e : RpcError),
          fetch_and_handle_tx oracle s = .error e →
          processLoop oracle (s :: rest) acc = processLoop oracle rest acc) := by
  intro mint oracle lastSeen
  constructor
  · intro e h
    simp [mainStep, poll_once, h]
  · intro s rest acc e h
    simp [processLoop, h]

/-- Witness for C9: a downed endpoint leaves the watermark "s0" unchanged,
and the failing signature "s2" is skipped while the loop continues. -/
theorem c9_failure_isolation_witness :
    mainStep "m" oracleDown (some "s0") = (some "s0", [])
    ∧ processLoop oracleTail ("s2" :: ["s1"]) none = processLoop oracleTail ["s1"] none :=
  ⟨(c9_failure_isolation "m" oracleDown (some "s0")).1 .httpStatus rfl,
   (c9_failure_isolation "m" oracleTail none).2 "s2" ["s1"] none .httpStatus rfl⟩

/-- C10: the cycle's outcome — watermark and emitted events — does not
depend on the configured mint string except through which signature page
the address query returns: two runs with different configured mints but
the same page response are identical. Moreover the emitted events are
exactly the detector's per-signature outputs, with no filtering on the
event's own `mint` field, so a burn of another token in a fetched
transaction is reported. -/
theorem c10_mint_noninterference :
    ∀ (m₁ m₂ : String) (oracle : Oracle) (lastSeen : Option String),
      (oracle "getSignaturesForAddress" [Json.str m₁, limitParam]
          = oracle "getSignaturesForAddress" [Json.str m₂, limitParam] →
        mainStep m₁ oracle lastSeen = mainStep m₂ oracle lastSeen)
      ∧ (∀ (sigs : List String) (acc : Option String),
          (processLoop oracle sigs acc).2 = sigs.filterMap (okEvent oracle)) := by
  intro m₁ m₂ oracle lastSeen
  constructor
  · intro h
    have hp : poll_once m₁ oracle lastSeen = poll_once m₂ oracle lastSeen := by
      unfold poll_once
      rw [h]
    unfold mainStep
    rw [hp]
  · exact processLoop_snd oracle

/-- Witness for C10: the watched USDC mint versus an arbitrary mint "X"
over the same page yield identical cycles, and the emitted event's mint is
"OTHER", different from the watched mint. -/
theorem c10_mint_noninterference_witness :
    mainStep DEFAULT_USDC_MINT oracleOther none = mainStep "X" oracleOther none
    ∧ (processLoop oracleOther ["s1"] none).2 = ["s1"].filterMap (okEvent oracleOther)
    ∧ (mainStep DEFAULT_USDC_MINT oracleOther none).2
        = [{ sig := "s1", mint := "OTHER", source := "B", amount := "5" }] :=
  ⟨(c10_mint_noninterference DEFAULT_USDC_MINT "X" oracleOther none).1 rfl,
   (c10_mint_noninterference DEFAULT_USDC_MINT "X" oracleOther none).2 ["s1"] none,
   by decide⟩
